import Mathlib

/-
Verification of the follower-lifecycle manager of the sauron log tailer
(package eye, file trail.go) against its natural-language specification.

The embedding models the core state of a Trail: the pool of tail handles
(`t.tails`, a Go slice of pointers to tail.Tail), the immutable TrailOptions,
and the externally visible state of the watcher and of the gocron scheduler
started by AddUnfollower. Filesystem effects (os.Stat) and the external
tailing library (tail.TailFile success or failure) are parameters collected
in an `Env`. Go `time.Time` and `time.Duration` values are modelled as
integers (nanoseconds); `time.Now().Sub(tm)` becomes `env.now - tm`.
Compiled regexes (`regexp.Regexp`) are modelled by their `MatchString`
function, `String → Bool`; a nil regexp field is `none`.
-/

namespace Sauron

/-- A Go `error` value; only its message is relevant to the model. -/
structure GoError where
  msg : String
deriving DecidableEq, Repr

/-- The part of Go `os.FileInfo` that trail.go consults: `ModTime()` and
`Name()`. Times are integers (nanoseconds since an arbitrary origin). -/
structure FileInfo where
  modTime : Int
  name : String
deriving DecidableEq, Repr

/-- The external world as seen by trail.go: the current clock, the result of
`os.Stat` per path (`none` models a stat error), and whether `tail.TailFile`
succeeds for a path. -/
structure Env where
  now : Int
  stat : String → Option FileInfo
  tailFileOk : String → Bool

/-- Embeds `tail.SeekInfo` from the hpcloud/tail configuration: an offset and
a whence constant (`2` is `io.SeekEnd`). -/
structure SeekInfo where
  offset : Int
  whence : Nat
deriving DecidableEq, Repr

/-- Embeds the fields of `tail.Config` that followFile sets: `Follow`,
`Location` (nil modelled as `none`), and `Poll`. -/
structure TailConfig where
  follow : Bool
  location : Option SeekInfo
  poll : Bool
deriving DecidableEq, Repr

/-- Embeds a `*tail.Tail` handle as stored in `t.tails`: the followed
filename, the configuration it was spawned with, and whether `Stop()` has
been called on it. -/
structure Tail where
  filename : String
  config : TailConfig
  stopped : Bool
deriving DecidableEq, Repr

/-- Embeds `TrailOptions` (trail_options.go). Regexes are modelled by their
`MatchString` functions; a nil field is `none`. Durations are integers. The
logger is not part of the state; log emissions that matter to a claim are
returned explicitly by the functions that produce them. -/
structure TrailOptions where
  pollChanges : Bool
  fileReg : Option (String → Bool)
  fileIgnoreReg : Option (String → Bool)
  fileIgnoreDuration : Int
  fileFollowDuration : Int
  pathReg : Option (String → Bool)

/-- Embeds the mutable state of a `Trail` plus the externally visible state
of its collaborators: `tails` is the follower pool (`t.tails`),
`watcherStopped` records whether `t.watcher.End()` has been called, and
`schedulerRunning` records whether the gocron scheduler started by
`AddUnfollower` is running. -/
structure Trail where
  tails : List Tail
  options : TrailOptions
  watcherStopped : Bool
  schedulerRunning : Bool

/-- Splits a character list on '/': a leading, trailing or doubled slash
contributes an empty piece, mirroring how Go's path functions see the
slash-separated elements of a path. The result is always nonempty. -/
def splitSlashes (l : List Char) : List (List Char) :=
  l.foldr
    (fun ch acc =>
      if ch = '/' then [] :: acc
      else
        match acc with
        | [] => [[ch]]
        | a :: rest => (ch :: a) :: rest)
    [[]]

/-- Go `filepath.Base` restricted to the slash-separated paths handled here:
the last nonempty slash-separated element; "." for the empty path; "/" when
the path consists only of slashes. -/
def filepathBase (p : String) : String :=
  if p = "" then "."
  else
    match ((splitSlashes p.data).filter (fun s => !s.isEmpty)).getLast? with
    | some b => String.mk b
    | none => "/"

/-- Go `filepath.Dir` restricted to the clean slash-separated paths handled
here: everything before the final slash-separated element; "." when the path
has no slash; "/" when the remainder is empty on a rooted path. -/
def filepathDir (p : String) : String :=
  match (splitSlashes p.data).dropLast with
  | [] => "."
  | init =>
    match List.intercalate ['/'] init with
    | [] => if p.data.head? = some '/' then "/" else "."
    | d => String.mk d

/-- Embeds `regexp.MatchString` applied through a possibly-nil regexp
pointer: matching against a nil regexp never happens in trail.go (guarded by
nil checks), so `none` yields `false` here. -/
def regMatch (r : Option (String → Bool)) (s : String) : Bool :=
  match r with
  | some f => f s
  | none => false

/-- Embeds `(t *Trail) isOldToIgnore(path)`: stat the path; on success
compare the age of the file with FileIgnoreDuration; on a stat error log and
return false (fail-open). -/
def isOldToIgnore (env : Env) (t : Trail) (path : String) : Bool :=
  match env.stat path with
  | some info => env.now - info.modTime > t.options.fileIgnoreDuration
  | none => false

/-- Embeds `ignore(t, path)` with the exact bracketing of the Go expression:
`(PathReg != nil && !PathReg.MatchString(Dir(path))) ||
 (FileReg != nil && !FileReg.MatchString(Base(path))) ||
 ((FileIgnoreReg != nil && FileIgnoreReg.MatchString(Base(path))) ||
   t.isOldToIgnore(path))`. -/
def ignore (env : Env) (t : Trail) (path : String) : Bool :=
  (t.options.pathReg.isSome && !(regMatch t.options.pathReg (filepathDir path))) ||
  (t.options.fileReg.isSome && !(regMatch t.options.fileReg (filepathBase path))) ||
  ((t.options.fileIgnoreReg.isSome && regMatch t.options.fileIgnoreReg (filepathBase path)) ||
    isOldToIgnore env t path)

/-- Restates the spec's PolicyFilter contract, written from the spec's words
and not from the Go expression: ignore iff at least one of the four rules
holds, as a flat disjunction, with rule 4 spelled out including the fail-open
treatment of stat errors. Used only to compare against `ignore`. -/
def shouldIgnoreSpec (env : Env) (t : Trail) (path : String) : Bool :=
  (t.options.pathReg.isSome && !(regMatch t.options.pathReg (filepathDir path))) ||
  (t.options.fileReg.isSome && !(regMatch t.options.fileReg (filepathBase path))) ||
  (t.options.fileIgnoreReg.isSome && regMatch t.options.fileIgnoreReg (filepathBase path)) ||
  (match env.stat path with
   | some info => env.now - info.modTime > t.options.fileIgnoreDuration
   | none => false)

/-- Embeds the `tail.Config` literal built inside followFile: for a new file
(`isNew`) the config has no Location (the tailing library then reads from the
start of the file); for an existing file the config carries
`SeekInfo{Offset: 0, Whence: 2}`, offset 0 from the end of the file. -/
def tailConfigFor (isNew : Bool) (poll : Bool) : TailConfig :=
  if isNew then
    { follow := true, location := none, poll := poll }
  else
    { follow := true, location := some { offset := 0, whence := 2 }, poll := poll }

/-- Where a follower starts reading. -/
inductive StartPos where
  | fileStart
  | fileEnd
deriving DecidableEq, Repr

/-- Modelled from the spec: the external tailing unit's interpretation of the
Location field, which is outside this repository. A nil Location means the
unit begins at the start of the file; offset 0 with whence 2 (io.SeekEnd)
means it begins at end-of-file. -/
def startPos (c : TailConfig) : StartPos :=
  match c.location with
  | none => StartPos.fileStart
  | some s => if s.whence = 2 && s.offset = 0 then StartPos.fileEnd else StartPos.fileStart

/-- Embeds the state effect of `(t *Trail) followFile(path, handler, isNew)`:
the spawned goroutine calls `tail.TailFile` with the config chosen by
`isNew`; on error it returns without touching the pool, otherwise it appends
the new handle to `t.tails`. -/
def followFile (env : Env) (t : Trail) (path : String) (isNew : Bool) : Trail :=
  if env.tailFileOk path then
    { t with tails := t.tails ++
        [{ filename := path,
           config := tailConfigFor isNew t.options.pollChanges,
           stopped := false }] }
  else t

/-- Embeds the Go slice expression `append(t.tails[:i], t.tails[i:]...)`
from unfollowFile: the length-`i` front of the slice with the elements from
index `i` on appended back, which rebuilds the original list. -/
def goSliceReassign (tails : List Tail) (i : Nat) : List Tail :=
  tails.take i ++ tails.drop i

theorem goSliceReassign_eq (tails : List Tail) (i : Nat) :
    goSliceReassign tails i = tails :=
  List.take_append_drop i tails

theorem goSliceReassign_length (tails : List Tail) (i : Nat) :
    (goSliceReassign tails i).length = tails.length := by
  rw [goSliceReassign_eq]

/-- Embeds the `for i, tail := range t.tails` loop of unfollowFile: Go's
`range` runs exactly once per index of the slice captured at loop entry, so
`steps` starts at the pool's length and counts the remaining iterations while
`i` is the current index. When the handle at index `i` has the matching
filename, `Stop()` is called on it (the `set`) and `t.tails` is reassigned to
`append(t.tails[:i], t.tails[i:]...)` (`goSliceReassign`). Since that
reassignment rebuilds the same list, iterating the current list coincides
with Go's iteration over the slice header captured at entry (both views share
one backing array, whose length never changes). -/
def unfollowFileAux (name : String) : Nat → List Tail → Nat → List Tail
  | 0, tails, _ => tails
  | steps + 1, tails, i =>
    if h : i < tails.length then
      let t := tails[i]
      if t.filename == name then
        unfollowFileAux name steps
          (goSliceReassign (tails.set i { t with stopped := true }) i) (i + 1)
      else
        unfollowFileAux name steps tails (i + 1)
    else
      tails

/-- Embeds `(t *Trail) unfollowFile(name) error`: run the loop, then
`return nil`. -/
def unfollowFile (t : Trail) (name : String) : Trail × Option GoError :=
  ({ t with tails := unfollowFileAux name t.tails.length t.tails 0 }, none)

/-- Embeds `(t *Trail) isOlderThanADay(tm)`: true when the age of `tm`
strictly exceeds FileFollowDuration. -/
def isOlderThanADay (env : Env) (t : Trail) (tm : Int) : Bool :=
  env.now - tm > t.options.fileFollowDuration

/-- Embeds the while loop of `unfollowOldFiles`. The Go loop keeps an index
`i`; every handle at an index below `i` has been examined and kept, so the
pool is `kept ++ rest` with `i = kept.length`. On a successful stat of the
current handle: if the file is old, `Stop()` is called and the handle is
removed by `copy` plus truncation (here: recorded in `evicted` with its
stopped flag set, and dropped from `rest`); otherwise `i` advances. On a
stat error the loop logs and retries the same index, so it never terminates
while that stat keeps failing; the `fuel` argument makes the recursion total
and returns `none` exactly when the Go loop has not finished within `fuel`
iterations. -/
def unfollowOldFilesAux (env : Env) (t : Trail) :
    Nat → List Tail → List Tail → List Tail → Option (List Tail × List Tail)
  | 0, _, _, _ => none
  | _ + 1, kept, evicted, [] => some (kept, evicted)
  | fuel + 1, kept, evicted, h :: rest =>
    match env.stat h.filename with
    | some info =>
      if isOlderThanADay env t info.modTime then
        unfollowOldFilesAux env t fuel kept (evicted ++ [{ h with stopped := true }]) rest
      else
        unfollowOldFilesAux env t fuel (kept ++ [h]) evicted rest
    | none => unfollowOldFilesAux env t fuel kept evicted (h :: rest)

/-- Embeds `(t *Trail) unfollowOldFiles() error`: run the sweep loop over
`t.tails`, then `return nil`. The result is the updated trail, the list of
handles that were stopped and removed during this tick, and the returned
error; `none` models a tick that does not terminate within `fuel` loop
iterations (possible only through repeated stat failures). -/
def unfollowOldFiles (env : Env) (t : Trail) (fuel : Nat) :
    Option (Trail × List Tail × Option GoError) :=
  (unfollowOldFilesAux env t fuel [] [] t.tails).map
    (fun r => ({ t with tails := r.1 }, r.2, none))

/-- Embeds `fsnotify.Op` as dispatched by the event loop in Follow. -/
inductive FileOp where
  | create
  | remove
  | rename
  | write
  | other
deriving DecidableEq, Repr

/-- Embeds `FileEvent` (path plus operation), produced by the Watcher. -/
structure FileEvent where
  path : String
  op : FileOp
deriving Repr

/-- Embeds one iteration of the event branch of the select loop inside
`Follow`: first the ignore check, then the switch on the operation. Create
spawns a follower in new mode (`isNew = true`); Remove calls `unfollowFile`
and discards its returned error; Rename, Write and the default branch only
log. -/
def eventStep (env : Env) (t : Trail) (e : FileEvent) : Trail :=
  if ignore env t e.path then t
  else
    match e.op with
    | FileOp.create => followFile env t e.path true
    | FileOp.remove => (unfollowFile t e.path).1
    | _ => t

/-- Stops every handle in a pool, as the done branch of the select loop does
with `for _, current := range t.tails { current.Stop() }`. -/
def stopAll (tails : List Tail) : List Tail :=
  tails.map (fun h => { h with stopped := true })

/-- Embeds the done branch of the select loop inside `Follow`, reached when
`End()` sends on `t.done`: stop the watcher, call `Stop()` on every handle
in `t.tails`, and return from the goroutine. Nothing in this branch (or
anywhere else in trail.go) touches the gocron scheduler started by
`AddUnfollower`, so `schedulerRunning` is left as it was. -/
def shutdownStep (t : Trail) : Trail :=
  { t with watcherStopped := true, tails := stopAll t.tails }

/-- Embeds the state effect of `AddUnfollower`: a gocron scheduler is created
and started; `<-s.Start()` then blocks, and no reference to the scheduler is
retained anywhere, so nothing can ever stop it. -/
def addUnfollower (t : Trail) : Trail :=
  { t with schedulerRunning := true }

/-- Embeds the synchronous part of `(t *Trail) Follow(handler)`: walk the
directory; if the walk fails, log and return the error with the trail
untouched; otherwise call `followFile(file, handler, false)` for every
walked file that survives the ignore check, start the event loop, and
return nil. -/
def Follow (env : Env) (t : Trail) (walkResult : Except GoError (List String)) :
    Trail × Option GoError :=
  match walkResult with
  | Except.error e => (t, some e)
  | Except.ok files =>
    (files.foldl (fun s f => if ignore env s f then s else followFile env s f false) t, none)

/-- Embeds a line received from the tailing unit's `Lines` channel: the
fields of `tail.Line` that followFile reads. -/
structure TailLine where
  text : String
  time : Int
  err : Option GoError
deriving DecidableEq, Repr

/-- Embeds the `Line` struct delivered to the handler. -/
structure Line where
  path : String
  text : String
  time : Int
  err : Option GoError
deriving DecidableEq, Repr

/-- Embeds the repackaging inside followFile's range loop: a `tail.Line`
becomes a `Line` with the follower's path and the line's text, time and
error. -/
def toLine (path : String) (l : TailLine) : Line :=
  { path := path, text := l.text, time := l.time, err := l.err }

/-- Embeds the `for line := range current.Lines` loop of followFile's
goroutine, run over the whole sequence the channel delivers before it
closes: each received line is repackaged by `toLine` and the handler is
called on it inline; the handler's returned error is discarded and the loop
body contains no logger call. The result is the sequence of handler
invocations (the Line passed and the error the handler returned), in channel
order, together with the list of log messages the loop emitted. -/
def followerLoop (path : String) (handler : Line → Option GoError)
    (lines : List TailLine) : List (Line × Option GoError) × List String :=
  (lines.map (fun l => (toLine path l, handler (toLine path l))), [])

/-- Embeds what happens to `t.tails` when followFile's goroutine returns
after its `Lines` channel closes (for instance after the tailing unit
delivered an error line): the goroutine simply falls off its function body;
no code in trail.go removes the handle from the pool. -/
def followerExitPool (tails : List Tail) : List Tail :=
  tails

/-! Concrete fixtures used by the counterexamples and witnesses. -/

/-- An environment in which every stat fails (so no path is ignorable by age)
and `tail.TailFile` always succeeds. -/
def envPlain : Env :=
  { now := 0, stat := fun _ => none, tailFileOk := fun _ => true }

/-- TrailOptions with every regexp nil, durations zero and polling off. -/
def optsPlain : TrailOptions :=
  { pollChanges := false, fileReg := none, fileIgnoreReg := none,
    fileIgnoreDuration := 0, fileFollowDuration := 0, pathReg := none }

/-- A running handle for path `p`, spawned in existing mode without polling. -/
def mkTail (p : String) : Tail :=
  { filename := p, config := tailConfigFor false false, stopped := false }

/-- A trail over `optsPlain` holding the given pool, with the watcher running
and no sweeper scheduler started. -/
def mkTrail (tails : List Tail) : Trail :=
  { tails := tails, options := optsPlain, watcherStopped := false,
    schedulerRunning := false }

/-! Claim theorems. -/

/-- C1: contrary to the claim, processing a Remove event for a path whose
handle is in the pool stops that handle's tailer but does not remove it: the
reassignment `append(t.tails[:i], t.tails[i:]...)` rebuilds the same slice,
so after the event the pool still contains a handle for "/a.log". -/
theorem c1_remove_stops_but_keeps_handle :
    (eventStep envPlain (mkTrail [mkTail "/a.log"]) ⟨"/a.log", FileOp.remove⟩).tails
      = [{ filename := "/a.log", config := tailConfigFor false false, stopped := true }] ∧
    ((eventStep envPlain (mkTrail [mkTail "/a.log"]) ⟨"/a.log", FileOp.remove⟩).tails.any
        (fun h => h.filename == "/a.log")) = true := by
  decide

/-- C2 counterexample: a Create event for "/x" while "/x" is already tracked
appends a second handle for the same path, so the pool then holds two handles
for "/x", refuting the invariant of at most one handle per path. -/
theorem c2_duplicate_create_counterexample :
    ((eventStep envPlain (mkTrail [mkTail "/x"]) ⟨"/x", FileOp.create⟩).tails.countP
        (fun h => h.filename == "/x")) = 2 ∧
    ¬(((eventStep envPlain (mkTrail [mkTail "/x"]) ⟨"/x", FileOp.create⟩).tails.countP
        (fun h => h.filename == "/x")) ≤ 1) := by
  decide

/-- C2 amended: the pool is a positional slice with no key check; a Create
event for a non-ignored path for which TailFile succeeds always appends a
fresh new-mode handle, whether or not the path is already tracked, so several
handles for one path can coexist. -/
theorem c2_create_always_appends (env : Env) (t : Trail) (path : String)
    (hig : ignore env t path = false) (hok : env.tailFileOk path = true) :
    (eventStep env t ⟨path, FileOp.create⟩).tails
      = t.tails ++ [{ filename := path,
                      config := tailConfigFor true t.options.pollChanges,
                      stopped := false }] := by
  simp [eventStep, hig, followFile, hok]

/-- C2 amended, witness: instantiation at a pool already tracking "/x". -/
theorem c2_create_always_appends_witness :
    (eventStep envPlain (mkTrail [mkTail "/x"]) ⟨"/x", FileOp.create⟩).tails
      = [mkTail "/x"] ++ [{ filename := "/x", config := tailConfigFor true false,
                            stopped := false }] :=
  c2_create_always_appends envPlain (mkTrail [mkTail "/x"]) "/x" (by decide) rfl

/-- Helper for the sweep: when every handle in `rest` stats successfully to a
file the trail considers old, the loop evicts all of them in order, stopping
each, and terminates within `rest.length + 1` iterations. -/
theorem unfollowOldFilesAux_all_old (env : Env) (t : Trail) :
    ∀ (rest : List Tail),
      (∀ h ∈ rest, ∃ info, env.stat h.filename = some info ∧
          isOlderThanADay env t info.modTime = true) →
      ∀ (kept evicted : List Tail),
        unfollowOldFilesAux env t (rest.length + 1) kept evicted rest
          = some (kept, evicted ++ stopAll rest) := by
  intro rest
  induction rest with
  | nil =>
    intro _ kept evicted
    simp [unfollowOldFilesAux, stopAll]
  | cons h rest ih =>
    intro hall kept evicted
    obtain ⟨info, hstat, hold⟩ := hall h (by simp)
    have hrest : ∀ h' ∈ rest, ∃ info, env.stat h'.filename = some info ∧
        isOlderThanADay env t info.modTime = true :=
      fun h' hm => hall h' (by simp [hm])
    have step : unfollowOldFilesAux env t ((h :: rest).length + 1) kept evicted (h :: rest)
        = unfollowOldFilesAux env t (rest.length + 1) kept
            (evicted ++ [{ h with stopped := true }]) rest := by
      simp [unfollowOldFilesAux, hstat, hold]
    rw [step, ih hrest]
    simp [stopAll]

/-- C3 counterexample: with FileFollowDuration zero and one tracked handle
whose file's modification time equals the current instant (age exactly zero),
a sweep tick keeps the handle — the comparison is strict — so the pool is not
left empty, refuting the claim that every tracked handle is removed. -/
theorem c3_age_zero_counterexample :
    (unfollowOldFiles
        { now := 0,
          stat := fun p => if p = "/a.log" then some { modTime := 0, name := "a.log" }
                           else none,
          tailFileOk := fun _ => true }
        (mkTrail [mkTail "/a.log"]) 5).map (fun r => (r.1.tails, r.2.1, r.2.2))
      = some ([mkTail "/a.log"], [], none) ∧
    ([mkTail "/a.log"] : List Tail) ≠ [] := by
  constructor
  · rfl
  · decide

/-- C3 amended: with FileFollowDuration zero, a sweep tick in which every
tracked file stats successfully to a modification time strictly before now
terminates within pool-length-plus-one iterations, removes every tracked
handle exactly once with its tailer stopped, leaves the pool empty and
returns nil. Handles whose file age is exactly zero (or negative), or whose
stat fails, are not covered: the former are kept by the strict comparison and
the latter make the tick loop forever. -/
theorem c3_zero_duration_sweep (env : Env) (t : Trail)
    (hdur : t.options.fileFollowDuration = 0)
    (hall : ∀ h ∈ t.tails, ∃ info, env.stat h.filename = some info ∧
        info.modTime < env.now) :
    unfollowOldFiles env t (t.tails.length + 1)
      = some ({ t with tails := [] }, stopAll t.tails, none) := by
  have hall' : ∀ h ∈ t.tails, ∃ info, env.stat h.filename = some info ∧
      isOlderThanADay env t info.modTime = true := by
    intro h hm
    obtain ⟨info, hs, hlt⟩ := hall h hm
    refine ⟨info, hs, ?_⟩
    simp only [isOlderThanADay, hdur, gt_iff_lt, decide_eq_true_eq]
    omega
  unfold unfollowOldFiles
  rw [unfollowOldFilesAux_all_old env t t.tails hall' [] []]
  simp

/-- C3 amended, witness: a two-handle pool over files ten units old with
threshold zero is fully evicted in one tick. -/
theorem c3_zero_duration_sweep_witness :
    unfollowOldFiles
        { now := 10, stat := fun _ => some { modTime := 0, name := "f" },
          tailFileOk := fun _ => true }
        (mkTrail [mkTail "/a.log", mkTail "/b.log"]) 3
      = some ({ mkTrail [mkTail "/a.log", mkTail "/b.log"] with tails := [] },
              stopAll [mkTail "/a.log", mkTail "/b.log"], none) :=
  c3_zero_duration_sweep
    { now := 10, stat := fun _ => some { modTime := 0, name := "f" },
      tailFileOk := fun _ => true }
    (mkTrail [mkTail "/a.log", mkTail "/b.log"]) rfl
    (fun h _ => ⟨{ modTime := 0, name := "f" }, rfl, by decide⟩)

/-- C4 counterexample: with the sweeper's gocron scheduler running, processing
the shutdown signal sent by End() leaves the scheduler running: the done
branch stops the watcher and the pooled tailers but nothing in trail.go ever
stops the scheduler, refuting the claim that after End() the StalenessSweeper
is stopped. -/
theorem c4_sweeper_survives_shutdown :
    (shutdownStep (addUnfollower (mkTrail []))).schedulerRunning = true := rfl

/-- C4 amended: End() is an unguarded send on the done channel (there is no
already-stopped flag, and a second call would block on the channel rather
than act as a no-op); when the event loop receives the signal it stops the
watcher and calls Stop() on every tailer then in the pool and exits, but the
StalenessSweeper's scheduler is left exactly as it was and can outlive the
Trail. -/
theorem c4_shutdown_stops_pool_not_scheduler (t : Trail) :
    (shutdownStep t).watcherStopped = true ∧
    (shutdownStep t).tails = stopAll t.tails ∧
    ((shutdownStep t).tails.all (fun h => h.stopped)) = true ∧
    (shutdownStep t).schedulerRunning = t.schedulerRunning := by
  refine ⟨rfl, rfl, ?_, rfl⟩
  simp [shutdownStep, stopAll, List.all_map, Function.comp]

/-- True when `pat` occurs as a contiguous subsequence of `l`; the semantics
of an unanchored Go regexp match of a literal pattern. -/
def containsSeq (pat : List Char) : List Char → Bool
  | [] => pat.isEmpty
  | c :: rest => pat.isPrefixOf (c :: rest) || containsSeq pat rest

/-- Matcher of the Go regexp "/app/logs" under MatchString: an unanchored
search for the literal, true exactly when the argument contains it. -/
def matchAppLogs (s : String) : Bool :=
  containsSeq "/app/logs".data s.data

/-- Matcher of the Go regexp "\.log$" under MatchString: true exactly when
the argument ends in ".log". -/
def matchDotLog (s : String) : Bool :=
  List.isSuffixOf ".log".data s.data

/-- Matcher of the Go regexp "\.tmp$" under MatchString: true exactly when
the argument ends in ".tmp". -/
def matchDotTmp (s : String) : Bool :=
  List.isSuffixOf ".tmp".data s.data

/-- TrailOptions of the policy example: pathInclude = /app/logs,
fileInclude = \.log$, fileExclude = \.tmp$, and an age-ignore threshold of
1000 time units. -/
def optsPolicy : TrailOptions :=
  { pollChanges := false, fileReg := some matchDotLog,
    fileIgnoreReg := some matchDotTmp, fileIgnoreDuration := 1000,
    fileFollowDuration := 0, pathReg := some matchAppLogs }

/-- Trail of the policy example. -/
def trailPolicy : Trail :=
  { tails := [], options := optsPolicy, watcherStopped := false,
    schedulerRunning := false }

/-- Environment of the policy example: /app/logs/a.log stats to a fresh
modification time; every other stat fails. -/
def envPolicy : Env :=
  { now := 0,
    stat := fun p => if p = "/app/logs/a.log" then some { modTime := 0, name := "a.log" }
                     else none,
    tailFileOk := fun _ => true }

/-- C5: the ignore decision agrees with the spec's flat four-rule disjunction
(including fail-open stat handling) for every environment, trail and path,
and the policy example evaluates as claimed: /app/logs/a.tmp is ignored,
/app/logs/a.log is not, /other/b.log is ignored. -/
theorem c5_ignore_iff_four_rules :
    (∀ (env : Env) (t : Trail) (path : String),
        ignore env t path = shouldIgnoreSpec env t path) ∧
    ignore envPolicy trailPolicy "/app/logs/a.tmp" = true ∧
    ignore envPolicy trailPolicy "/app/logs/a.log" = false ∧
    ignore envPolicy trailPolicy "/other/b.log" = true := by
  refine ⟨?_, ?_, ?_, ?_⟩
  · intro env t path
    simp [ignore, shouldIgnoreSpec, isOldToIgnore, Bool.or_assoc]
  · decide
  · decide
  · decide

/-- Helper: followFile never changes the trail's options. -/
theorem followFile_options (env : Env) (t : Trail) (path : String) (isNew : Bool) :
    (followFile env t path isNew).options = t.options := by
  unfold followFile
  split <;> rfl

/-- Helper: the initial-listing fold of Follow only ever appends handles
whose config is the existing-mode config for the original poll setting. -/
theorem follow_fold_all_existing (env : Env) (po : Bool) :
    ∀ (files : List String) (s : Trail), s.options.pollChanges = po →
      (s.tails.all (fun h => h.config == tailConfigFor false po)) = true →
      (((files.foldl (fun s f => if ignore env s f then s else followFile env s f false)
          s).tails.all (fun h => h.config == tailConfigFor false po)) = true) := by
  intro files
  induction files with
  | nil => intro s _ hall; simpa using hall
  | cons f files ih =>
    intro s hpo hall
    simp only [List.foldl_cons]
    by_cases hig : ignore env s f
    · simp only [hig, if_true]
      exact ih s hpo hall
    · simp only [hig, if_false]
      refine ih (followFile env s f false) ?_ ?_
      · rw [followFile_options]; exact hpo
      · unfold followFile
        split
        · simp only [List.all_append, hall, Bool.true_and, List.all_cons, List.all_nil,
            Bool.and_true, hpo, beq_self_eq_true]
        · exact hall

/-- C6: every follower started for a file of the initial directory listing is
spawned in existing mode (its config seeks to offset 0 from the end of the
file, so only content appended later is visible), every follower started for
a Create event is spawned in new mode (no seek location, so the whole file is
captured), and those two configs position the tailing unit at end-of-file and
start-of-file respectively. -/
theorem c6_initial_at_eof_create_at_start :
    (∀ (env : Env) (t : Trail) (files : List String), t.tails = [] →
      ((Follow env t (Except.ok files)).1.tails.all
          (fun h => h.config == tailConfigFor false t.options.pollChanges)) = true) ∧
    (∀ (env : Env) (t : Trail) (path : String),
      ignore env t path = false → env.tailFileOk path = true →
      (eventStep env t ⟨path, FileOp.create⟩).tails
        = t.tails ++ [{ filename := path,
                        config := tailConfigFor true t.options.pollChanges,
                        stopped := false }]) ∧
    (∀ p : Bool, startPos (tailConfigFor true p) = StartPos.fileStart ∧
      startPos (tailConfigFor false p) = StartPos.fileEnd) := by
  refine ⟨?_, ?_, ?_⟩
  · intro env t files hnil
    exact follow_fold_all_existing env t.options.pollChanges files t rfl (by rw [hnil]; rfl)
  · intro env t path hig hok
    simp [eventStep, hig, followFile, hok]
  · intro p
    constructor <;> rfl

/-- C6 witness: instantiation at an empty pool, a one-file listing and a
Create event, with polling off. -/
theorem c6_initial_at_eof_create_at_start_witness :
    ((Follow envPlain (mkTrail []) (Except.ok ["/w.log"])).1.tails.all
        (fun h => h.config == tailConfigFor false false)) = true ∧
    (eventStep envPlain (mkTrail []) ⟨"/c.log", FileOp.create⟩).tails
      = [] ++ [{ filename := "/c.log", config := tailConfigFor true false,
                 stopped := false }] ∧
    startPos (tailConfigFor true false) = StartPos.fileStart ∧
    startPos (tailConfigFor false false) = StartPos.fileEnd :=
  ⟨c6_initial_at_eof_create_at_start.1 envPlain (mkTrail []) ["/w.log"] rfl,
   c6_initial_at_eof_create_at_start.2.1 envPlain (mkTrail []) "/c.log" (by decide) rfl,
   (c6_initial_at_eof_create_at_start.2.2 false).1,
   (c6_initial_at_eof_create_at_start.2.2 false).2⟩

/-- C7: Follow returns an error exactly when the initial walk fails, in which
case the trail is returned untouched with no follower started; for every
successful listing, Follow returns nil. -/
theorem c7_follow_error_iff_walk_error (env : Env) (t : Trail) :
    (∀ e, Follow env t (Except.error e) = (t, some e)) ∧
    (∀ files, (Follow env t (Except.ok files)).2 = none) :=
  ⟨fun _ => rfl, fun _ => rfl⟩

/-- C8 counterexample: the tailing unit delivers an error line for "/a.log";
the handler receives the Line with its err field set and the goroutine then
exits with the channel, but the pool is unchanged: the handle for "/a.log" is
still present, refuting the claimed removal from the pool. -/
theorem c8_error_line_handle_not_removed :
    ((followerLoop "/a.log" (fun _ => none)
        [{ text := "", time := 0, err := some { msg := "tail failure" } }]).1.map
          (fun c => c.1.err)) = [some { msg := "tail failure" }] ∧
    ((followerExitPool [mkTail "/a.log"]).any (fun h => h.filename == "/a.log")) = true := by
  constructor
  · rfl
  · decide

/-- C8 amended: every line from the tailing unit, error lines included, is
surfaced to the handler as a Line with the err field preserved, and when the
goroutine exits after the channel closes the pool is left unchanged — the
handle is not removed. -/
theorem c8_error_surfaced_pool_unchanged (path : String)
    (handler : Line → Option GoError) (lines : List TailLine) (tails : List Tail) :
    ((followerLoop path handler lines).1.map (fun c => c.1.err)
        = lines.map (fun l => l.err)) ∧
    followerExitPool tails = tails := by
  constructor
  · simp [followerLoop, toLine]
  · rfl

/-- C9 counterexample: a handler failure on a line: the loop records the
non-nil error the handler returned, yet the loop emits no log message — the
error is silently discarded, refuting the claim that it is logged. -/
theorem c9_handler_error_not_logged :
    ((followerLoop "/f.log" (fun _ => some { msg := "handler failure" })
        [{ text := "x", time := 0, err := none }]).1.map (fun c => c.2))
      = [some { msg := "handler failure" }] ∧
    (followerLoop "/f.log" (fun _ => some { msg := "handler failure" })
        [{ text := "x", time := 0, err := none }]).2 = ([] : List String) := by
  constructor <;> rfl

/-- C9 amended: the handler is invoked exactly once per line, synchronously
and in channel order — the invocation sequence is precisely the per-line
repackaging of the input sequence — and the loop processes every line
whatever the handler returns; a non-nil handler error is silently discarded
(no log message is emitted) and does not terminate the follower. -/
theorem c9_handler_once_per_line_error_discarded (path : String)
    (handler : Line → Option GoError) (lines : List TailLine) :
    ((followerLoop path handler lines).1.map (fun c => c.1) = lines.map (toLine path)) ∧
    (followerLoop path handler lines).1.length = lines.length ∧
    (followerLoop path handler lines).2 = ([] : List String) := by
  refine ⟨?_, ?_, rfl⟩ <;> simp [followerLoop]

/-- C10: unfollowFile returns nil for every name and every pool; every
terminating run of unfollowOldFiles returns nil (stat failures are only
logged — on a persistently failing stat the tick fails to terminate rather
than returning an error); and the event loop's Remove branch discards
unfollowFile's returned error, keeping only the updated trail. -/
theorem c10_unfollow_errors_always_nil :
    (∀ (t : Trail) (name : String), (unfollowFile t name).2 = none) ∧
    (∀ (env : Env) (t : Trail) (fuel : Nat) (r : Trail × List Tail × Option GoError),
        unfollowOldFiles env t fuel = some r → r.2.2 = none) ∧
    (∀ (env : Env) (t : Trail) (path : String),
        eventStep env t ⟨path, FileOp.remove⟩
          = if ignore env t path then t else (unfollowFile t path).1) := by
  refine ⟨fun _ _ => rfl, ?_, fun _ _ _ => rfl⟩
  intro env t fuel r hr
  unfold unfollowOldFiles at hr
  cases hAux : unfollowOldFilesAux env t fuel [] [] t.tails with
  | none => rw [hAux] at hr; simp at hr
  | some p =>
    rw [hAux] at hr
    have heq : ({ t with tails := p.1 }, p.2, (none : Option GoError)) = r :=
      Option.some.inj hr
    rw [← heq]

/-- C10 witness: instantiation of the hypothesis-bearing conjunct at a trail
with an empty pool, whose sweep terminates immediately. -/
theorem c10_unfollow_errors_always_nil_witness :
    (({ mkTrail [] with tails := ([] : List Tail) }, ([] : List Tail),
        (none : Option GoError)).2.2 = (none : Option GoError)) ∧
    (unfollowFile (mkTrail [mkTail "/x"]) "/x").2 = none :=
  ⟨c10_unfollow_errors_always_nil.2.1 envPlain (mkTrail []) 1
      ({ mkTrail [] with tails := [] }, [], none) rfl,
   c10_unfollow_errors_always_nil.1 (mkTrail [mkTail "/x"]) "/x"⟩

end Sauron
